import Mathlib

/-!
Verification of the Subscription & Billing Ledger of the video-text repository.

The JavaScript source (stores/subscription.js, stores/billing.js,
services/billing.service.js) is shallowly embedded below:

* JavaScript `Map`/plain-object maps become functions `String → Option α`
  (insertion updates the function pointwise);
* JavaScript arrays become Lean lists (the redeem-code list keeps the array's
  insertion order, which `redeem`'s first-match lookup depends on);
* JavaScript numbers carrying money or minute quantities become `ℚ` (the
  numerical claims are about exact arithmetic), epoch-millisecond timestamps
  and durations become `ℤ`;
* `Date.now()` becomes an explicit `now : ℤ` argument threaded through each
  operation; `new Date(ts).toISOString().slice(0, 10)` (a platform library
  call) becomes an explicit `getDateKey : ℤ → String` parameter;
* the SHA-256 digest `hashCode` (a platform library call) becomes an explicit
  `hash : String → String` parameter: the ledger only relies on it being a
  deterministic function of the plaintext;
* a missing / `undefined` / non-numeric field becomes `Option.none`; JavaScript
  truthiness on a number is `≠ 0`, on a string `≠ ""`.
-/

/-- `normalizeBaseId` (subscription.js): trim the raw id; non-strings become
`""` (the embedding is typed, so only the trim remains). The trim is spelled
out on the character list: drop leading and trailing whitespace. -/
def normalizeBaseId (value : String) : String :=
  ⟨((value.data.dropWhile Char.isWhitespace).reverse.dropWhile Char.isWhitespace).reverse⟩

/-- JavaScript `Number.MAX_SAFE_INTEGER`. -/
def maxSafeInteger : ℤ := 2 ^ 53 - 1

/-- A redeem-code record `{codeHash, durationMs, usedAt, usedBy}`;
`usedAt = 0` and `usedBy = ""` mean unused. -/
structure RedeemCode where
  codeHash : String
  durationMs : ℤ
  usedAt : ℤ
  usedBy : String
  deriving DecidableEq, Repr

/-- Startup configuration of `createSubscriptionStore` that never changes
afterwards: trial limit, static paid allow-list, bypass flag. -/
structure SubConfig where
  trialLimit : ℤ
  paidBaseIds : String → Bool
  allowBypass : Bool

/-- Mutable state of the subscription store: the trial-usage counters, the
paid-until map, the admin set and the redeem-code list. -/
structure SubState where
  usage : String → ℕ
  paidUntilMap : String → Option ℤ
  adminSet : String → Bool
  redeemList : List RedeemCode

/-- `getPaidUntil` (subscription.js): the stored value, `0` when absent.
(The source stores the number as a string and parses it back; the embedding
keeps it as `ℤ`, which the parse round-trips.) -/
def getPaidUntil (s : SubState) (baseId : String) : ℤ :=
  (s.paidUntilMap baseId).getD 0

/-- `setPaidUntil` (subscription.js): write the paid-until map (no-op on an
empty id). Persistence is modelled separately (see `writeStore`). -/
def setPaidUntil (s : SubState) (baseId : String) (untilMs : ℤ) : SubState :=
  if baseId = "" then s
  else { s with paidUntilMap := fun b => if b = baseId then some untilMs else s.paidUntilMap b }

/-- `activatePlan` (subscription.js): reject an empty id or a falsy (zero)
duration with `null`; otherwise extend from
`max(Date.now(), paidAt || Date.now(), getPaidUntil(...))`.
Returns the new paid-until and the updated state. -/
def activatePlan (s : SubState) (now : ℤ) (baseId : String) (durationMs : ℤ)
    (paidAt : Option ℤ) : Option ℤ × SubState :=
  let normalized := normalizeBaseId baseId
  if normalized = "" ∨ durationMs = 0 then (none, s)
  else
    let paidAtEff := match paidAt with
      | some p => if p = 0 then now else p
      | none => now
    let start := max (max now paidAtEff) (getPaidUntil s normalized)
    let nextUntil := start + durationMs
    (some nextUntil, setPaidUntil s normalized nextUntil)

/-- `addRedeemCode` (subscription.js): reject a falsy code or duration, else
append a fresh unused record for `hash code`. -/
def addRedeemCode (hash : String → String) (s : SubState) (code : String)
    (durationMs : ℤ) : Bool × SubState :=
  if code = "" ∨ durationMs = 0 then (false, s)
  else (true, { s with redeemList := s.redeemList ++ [⟨hash code, durationMs, 0, ""⟩] })

/-- The in-place mutation `item.usedAt = Date.now(); item.usedBy = normalized`
performed on the record `redeemList.find(...)` returned: mark the first record
with the given hash. -/
def markFirstUsed (codeHash : String) (now : ℤ) (tenant : String) :
    List RedeemCode → List RedeemCode
  | [] => []
  | x :: xs =>
    if x.codeHash = codeHash then { x with usedAt := now, usedBy := tenant } :: xs
    else x :: markFirstUsed codeHash now tenant xs

/-- Result shape of `redeem`: `{ok: true, paidUntil}` or `{ok: false, message}`. -/
inductive RedeemResult where
  | ok (paidUntil : Option ℤ)
  | fail (message : String)
  deriving DecidableEq, Repr

/-- `redeem` (subscription.js): look up the first record whose hash matches,
fail on absent or used records, otherwise `activatePlan` with the record's
duration and mark the record used by this tenant. -/
def redeem (hash : String → String) (s : SubState) (now : ℤ)
    (baseId code : String) : RedeemResult × SubState :=
  let normalized := normalizeBaseId baseId
  if normalized = "" ∨ code = "" then (.fail "缺少 baseId 或兑换码", s)
  else
    let codeHash := hash code
    match s.redeemList.find? (fun x => x.codeHash = codeHash) with
    | none => (.fail "兑换码无效", s)
    | some item =>
      if item.usedAt ≠ 0 ∧ item.usedBy ≠ "" then (.fail "兑换码已使用", s)
      else
        let activated := activatePlan s now normalized item.durationMs (some now)
        let s2 := activated.2
        let s3 := { s2 with redeemList := markFirstUsed codeHash now normalized s2.redeemList }
        (.ok activated.1, s3)

/-- The record returned by the internal `isPaid` helper. -/
structure PaidInfo where
  paid : Bool
  paidUntil : ℤ
  admin : Bool
  deriving DecidableEq, Repr

/-- `isPaid` (subscription.js): admin set, then static paid list, then the
stored paid-until compared with `Date.now()`. -/
def isPaid (cfg : SubConfig) (s : SubState) (now : ℤ) (baseId : String) : PaidInfo :=
  if s.adminSet baseId then ⟨true, maxSafeInteger, true⟩
  else if cfg.paidBaseIds baseId then ⟨true, maxSafeInteger, false⟩
  else
    let untilMs := getPaidUntil s baseId
    if untilMs = 0 then ⟨false, 0, false⟩
    else if now ≤ untilMs then ⟨true, untilMs, false⟩
    else ⟨false, untilMs, false⟩

/-- `getFreeRemaining` (subscription.js): `max(0, trialLimit - used)`. -/
def getFreeRemaining (cfg : SubConfig) (s : SubState) (baseId : String) : ℤ :=
  max 0 (cfg.trialLimit - (s.usage baseId : ℤ))

/-- The status object built by `buildStatus`; `paidUntil` is `none` in the
branch that leaves the field `undefined`. -/
structure Status where
  baseId : String
  isPaid : Bool
  freeRemaining : ℤ
  allowed : Bool
  message : String
  paidUntil : Option ℤ
  deriving DecidableEq, Repr

/-- `getStatus` (subscription.js): read-only admission decision with the
precedence missing id → bypass → paid (admin / static / paid-until) → trial. -/
def getStatus (cfg : SubConfig) (s : SubState) (now : ℤ) (rawBaseId : String) : Status :=
  let baseId := normalizeBaseId rawBaseId
  if baseId = "" then
    ⟨baseId, false, 0, false, "缺少 baseId", none⟩
  else if cfg.allowBypass then
    ⟨baseId, true, cfg.trialLimit, true, "开发环境已放行", some maxSafeInteger⟩
  else
    let paidInfo := isPaid cfg s now baseId
    if paidInfo.paid then
      ⟨baseId, true, cfg.trialLimit, true,
        if paidInfo.admin then "管理员免付" else "已开通", some paidInfo.paidUntil⟩
    else
      let freeRemaining := getFreeRemaining cfg s baseId
      ⟨baseId, false, freeRemaining, freeRemaining > 0,
        if freeRemaining > 0 then "剩余试用 " ++ toString freeRemaining ++ " 次" else "试用已用完",
        some paidInfo.paidUntil⟩

/-- `consume` (subscription.js): same precedence as `getStatus`, but the trial
branch increments the usage counter when remaining > 0 and reports the
post-increment remaining. Returns the status and the updated state. -/
def consume (cfg : SubConfig) (s : SubState) (now : ℤ) (rawBaseId : String) :
    Status × SubState :=
  let baseId := normalizeBaseId rawBaseId
  if baseId = "" then
    (⟨baseId, false, 0, false, "缺少 baseId", none⟩, s)
  else if cfg.allowBypass then
    (⟨baseId, true, cfg.trialLimit, true, "开发环境已放行", some maxSafeInteger⟩, s)
  else
    let paidInfo := isPaid cfg s now baseId
    if paidInfo.paid then
      (⟨baseId, true, cfg.trialLimit, true,
        if paidInfo.admin then "管理员免付" else "已开通", some paidInfo.paidUntil⟩, s)
    else
      let freeRemaining := getFreeRemaining cfg s baseId
      if freeRemaining ≤ 0 then
        (⟨baseId, false, 0, false, "试用已用完", some paidInfo.paidUntil⟩, s)
      else
        let s2 := { s with usage := fun b => if b = baseId then s.usage b + 1 else s.usage b }
        let nextRemaining := getFreeRemaining cfg s2 baseId
        (⟨baseId, false, nextRemaining, true,
          if nextRemaining > 0 then "剩余试用 " ++ toString nextRemaining ++ " 次" else "试用已用完",
          some paidInfo.paidUntil⟩, s2)

/-!
## Billing store (stores/billing.js)
-/

/-- A normalized tier `{upToMinutes, unitPrice}`; `upToMinutes = none` models
the JavaScript `Number.POSITIVE_INFINITY` boundary. -/
structure Tier where
  upToMinutes : Option ℚ
  unitPrice : ℚ
  deriving DecidableEq, Repr

/-- A raw tier entry before normalization; `none` models a missing or
non-numeric field. -/
structure RawTier where
  upToMinutes : Option ℚ := none
  upToHours : Option ℚ := none
  upTo : Option ℚ := none
  unitPrice : Option ℚ := none
  unitPricePerMinute : Option ℚ := none
  unitPricePerHour : Option ℚ := none
  deriving DecidableEq, Repr

/-- A raw per-tenant pricing override before normalization. -/
structure RawPricing where
  planPriceById : Option (List (String × ℚ)) := none
  modelUnitPrice : Option ℚ := none
  modelUnitLabel : Option String := none
  tieredPrices : Option (List RawTier) := none
  deriving DecidableEq, Repr

/-- The installation default pricing supplied at store creation. -/
structure DefaultPricing where
  modelUnitPrice : ℚ
  modelUnitLabel : String
  tieredPrices : Option (List RawTier) := none

/-- A normalized pricing profile as returned by `normalizePricing`. -/
structure Pricing where
  planPriceById : List (String × ℚ)
  modelUnitPrice : ℚ
  modelUnitLabel : String
  tieredPrices : List Tier
  deriving DecidableEq, Repr

/-- The boundary coercion in `normalizeTieredPrices`: `upToMinutes`, else
`upToHours * 60`, else `upTo`, else infinity (`none`). -/
def rawTierBound (item : RawTier) : Option ℚ :=
  match item.upToMinutes with
  | some v => some v
  | none =>
    match item.upToHours with
    | some v => some (v * 60)
    | none => item.upTo

/-- The unit-price coercion in `normalizeTieredPrices`: `unitPrice`, else
`unitPricePerMinute`, else `unitPricePerHour / 60`, else the fallback. -/
def rawTierUnitPrice (item : RawTier) (fallbackPrice : ℚ) : ℚ :=
  match item.unitPrice with
  | some v => v
  | none =>
    match item.unitPricePerMinute with
    | some v => v
    | none =>
      match item.unitPricePerHour with
      | some v => v / 60
      | none => fallbackPrice

/-- The ascending-by-boundary comparison used to sort normalized tiers: an
infinite boundary sorts last. -/
def tierLE (a b : Tier) : Bool :=
  match a.upToMinutes, b.upToMinutes with
  | _, none => true
  | none, some _ => false
  | some x, some y => x ≤ y

/-- `normalizeTieredPrices` (billing.js): a non-array becomes `[]`; each entry
gets its minute boundary and unit price coerced, entries with a negative unit
price are dropped, and the result is stably sorted ascending by boundary with
infinite boundaries last. -/
def normalizeTieredPrices (tieredPrices : Option (List RawTier)) (fallbackPrice : ℚ) :
    List Tier :=
  match tieredPrices with
  | none => []
  | some l =>
    let normalized := l.filterMap (fun item =>
      let unitPrice := rawTierUnitPrice item fallbackPrice
      if unitPrice < 0 then none
      else some ⟨rawTierBound item, unitPrice⟩)
    normalized.mergeSort tierLE

/-- `normalizePricing` (billing.js): override merged over the installation
default; the resolved flat price is also the fallback fed to the tier
normalizer. -/
def normalizePricing (dp : DefaultPricing) (pricing : RawPricing) : Pricing :=
  let fallbackUnitPrice := pricing.modelUnitPrice.getD dp.modelUnitPrice
  { planPriceById := pricing.planPriceById.getD []
    modelUnitPrice := fallbackUnitPrice
    modelUnitLabel :=
      match pricing.modelUnitLabel with
      | some l => if l = "" then dp.modelUnitLabel else l
      | none => dp.modelUnitLabel
    tieredPrices :=
      normalizeTieredPrices
        (match pricing.tieredPrices with
         | some t => some t
         | none => dp.tieredPrices)
        fallbackUnitPrice }

/-- A per-tenant cumulative usage entry `{count, minutes, cost}` as written by
`recordUsage` (`minutes` mirrors `count`). -/
structure UsageEntry where
  count : ℚ
  minutes : ℚ
  cost : ℚ
  deriving DecidableEq, Repr

/-- A per-day usage entry `{minutes, cost}`. -/
structure DailyEntry where
  minutes : ℚ
  cost : ℚ
  deriving DecidableEq, Repr

/-- Mutable state of the billing store: pricing overrides, cumulative usage
and per-day usage, each keyed by tenant (daily usage further keyed by the
`YYYY-MM-DD` date string). -/
structure BillingState where
  pricingMap : String → Option RawPricing
  usageMap : String → Option UsageEntry
  dailyUsageMap : String → Option (String → Option DailyEntry)

/-- Store-wide context: the installation default pricing and the platform
date function `ts ↦ new Date(ts).toISOString().slice(0, 10)`. -/
structure BillingCtx where
  defaultPricing : DefaultPricing
  getDateKey : ℤ → String

/-- `getPricing` (billing.js): normalize the tenant's raw override (or `{}`
when the tenant is unknown or the id empty). -/
def getPricing (ctx : BillingCtx) (bs : BillingState) (baseId : String) : Pricing :=
  if baseId = "" then normalizePricing ctx.defaultPricing {}
  else normalizePricing ctx.defaultPricing ((bs.pricingMap baseId).getD {})

/-- `getUsage` (billing.js): the tenant's cumulative entry, zeros when absent
or on an invalid id. -/
def getUsage (bs : BillingState) (baseId : String) : UsageEntry :=
  let normalized := normalizeBaseId baseId
  if normalized = "" then ⟨0, 0, 0⟩
  else
    match bs.usageMap normalized with
    | some u => ⟨u.count, u.count, u.cost⟩
    | none => ⟨0, 0, 0⟩

/-- `getDailyUsage` (billing.js): the tenant's entry for the given date key,
zeros when absent or on an invalid id. -/
def getDailyUsage (bs : BillingState) (baseId : String) (dateKey : String) : DailyEntry :=
  let normalized := normalizeBaseId baseId
  if normalized = "" then ⟨0, 0⟩
  else
    match (bs.dailyUsageMap normalized).getD (fun _ => none) dateKey with
    | some d => d
    | none => ⟨0, 0⟩

/-- Whether `totalMinutes <= tier.upToMinutes`, an infinite boundary matching
everything. -/
def tierMatches (totalMinutes : ℚ) (t : Tier) : Bool :=
  match t.upToMinutes with
  | none => true
  | some b => totalMinutes ≤ b

/-- The `for`-loop of `resolveCurrentTierUnitPrice`: first matching tier wins,
and falling off the end yields `last.unitPrice || fallback` on the original
list. -/
def resolveTierLoop (orig : List Tier) (totalMinutes fallbackUnitPrice : ℚ) :
    List Tier → ℚ
  | [] =>
    match orig.getLast? with
    | some last => if last.unitPrice = 0 then fallbackUnitPrice else last.unitPrice
    | none => fallbackUnitPrice
  | t :: rest =>
    if tierMatches totalMinutes t then t.unitPrice
    else resolveTierLoop orig totalMinutes fallbackUnitPrice rest

/-- `resolveCurrentTierUnitPrice` (billing.js). -/
def resolveCurrentTierUnitPrice (tieredPrices : List Tier) (totalMinutes fallbackUnitPrice : ℚ) : ℚ :=
  if tieredPrices.isEmpty then fallbackUnitPrice
  else resolveTierLoop tieredPrices totalMinutes fallbackUnitPrice tieredPrices

/-- The `for`-loop of `calculateTieredCost` with its trailing
`if (remaining > 0) cost += remaining * fallbackUnitPrice`. -/
def tieredLoop (fallbackUnitPrice : ℚ) :
    List Tier → ℚ → ℚ → ℚ → ℚ
  | [], remaining, cost, _cursor =>
    if remaining > 0 then cost + remaining * fallbackUnitPrice else cost
  | tier :: rest, remaining, cost, cursor =>
    if remaining ≤ 0 then cost
    else
      let available := match tier.upToMinutes with
        | some limit => max 0 (limit - cursor)
        | none => remaining
      if available ≤ 0 then tieredLoop fallbackUnitPrice rest remaining cost cursor
      else
        let used := min remaining available
        tieredLoop fallbackUnitPrice rest (remaining - used)
          (cost + used * tier.unitPrice) (cursor + used)

/-- `calculateTieredCost` (billing.js): the tier-crossing cost of adding
`addMinutes` starting from cursor `prevMinutes`. -/
def calculateTieredCost (tieredPrices : List Tier) (prevMinutes addMinutes fallbackUnitPrice : ℚ) : ℚ :=
  if tieredPrices.isEmpty then addMinutes * fallbackUnitPrice
  else tieredLoop fallbackUnitPrice tieredPrices addMinutes 0 prevMinutes

/-- `Number(x.toFixed(4))`: round to 4 decimal places (ties up; the claims
never depend on tie behaviour). -/
def round4 (q : ℚ) : ℚ :=
  (Rat.floor (q * 10000 + 1 / 2) : ℚ) / 10000

/-- Arguments of `recordUsage`; `units` defaults to 1 when absent. -/
structure RecordUsageArgs where
  baseId : String
  units : Option ℚ := none
  minutes : Option ℚ := none
  durationMs : Option ℚ := none
  occurredAt : Option ℤ := none

/-- The quantity resolution of `recordUsage`: explicit positive minutes, else
positive duration rounded up to whole minutes (min 1), else a positive unit
count, else 1. -/
def resolvedMinutesOf (units minutes durationMs : Option ℚ) : ℚ :=
  match minutes.bind (fun m => if 0 < m then some m else none) with
  | some m => m
  | none =>
    match durationMs.bind (fun d => if 0 < d then some d else none) with
    | some d => max 1 ((Rat.ceil (d / 60000) : ℤ) : ℚ)
    | none =>
      let u := units.getD 1
      if 0 < u then u else 1

/-- The result object of `recordUsage`. The invalid-id branch of the source
returns the partial object `{count: 0, cost: 0}`; the embedding fills the
remaining fields with zeros / `""`. -/
structure UsageResult where
  count : ℚ
  minutes : ℚ
  cost : ℚ
  dailyMinutes : ℚ
  dailyCost : ℚ
  unitPrice : ℚ
  unitLabel : String
  deriving DecidableEq, Repr

/-- `recordUsage` (billing.js): resolve the minute quantity, price it with the
tier-crossing algorithm against the day's running total, update the daily and
cumulative ledgers (money rounded to 4 decimals) and report the new totals. -/
def recordUsage (ctx : BillingCtx) (bs : BillingState) (now : ℤ)
    (args : RecordUsageArgs) : UsageResult × BillingState :=
  let normalized := normalizeBaseId args.baseId
  if normalized = "" then (⟨0, 0, 0, 0, 0, 0, ""⟩, bs)
  else
    let pricing := getPricing ctx bs normalized
    let prev := getUsage bs normalized
    let resolvedMinutes := resolvedMinutesOf args.units args.minutes args.durationMs
    let dateKey := ctx.getDateKey (args.occurredAt.getD now)
    let dailyPrev := getDailyUsage bs normalized dateKey
    let dailyCostDelta :=
      calculateTieredCost pricing.tieredPrices dailyPrev.minutes resolvedMinutes
        pricing.modelUnitPrice
    let nextDailyMinutes := dailyPrev.minutes + resolvedMinutes
    let nextDailyCost := round4 (dailyPrev.cost + dailyCostDelta)
    let dailyByDate := (bs.dailyUsageMap normalized).getD (fun _ => none)
    let dailyByDate2 := fun k =>
      if k = dateKey then some (⟨nextDailyMinutes, nextDailyCost⟩ : DailyEntry)
      else dailyByDate k
    let nextCount := prev.count + resolvedMinutes
    let nextCost := round4 (prev.cost + dailyCostDelta)
    let bs2 : BillingState :=
      { bs with
        dailyUsageMap := fun b =>
          if b = normalized then some dailyByDate2 else bs.dailyUsageMap b
        usageMap := fun b =>
          if b = normalized then some ⟨nextCount, nextCount, nextCost⟩ else bs.usageMap b }
    (⟨nextCount, nextCount, nextCost, nextDailyMinutes, nextDailyCost,
      resolveCurrentTierUnitPrice pricing.tieredPrices nextDailyMinutes pricing.modelUnitPrice,
      pricing.modelUnitLabel⟩, bs2)

/-!
## Usage charge bridge (`createUsageRecorder`, stores/billing.js) and
persistence sink (`createWriteStore`, services/store code)
-/

/-- A pending billing task `{baseId, charged, durationMs}` as registered on
task submission. -/
structure PendingTask where
  baseId : String
  charged : Bool
  durationMs : Option ℤ
  deriving DecidableEq, Repr

/-- `billingTasks.delete(taskId)` on the task map. -/
def eraseTask (tasks : String → Option PendingTask) (taskId : String) :
    String → Option PendingTask :=
  fun t => if t = taskId then none else tasks t

/-- The duration resolution of the charge bridge: the registered duration when
finite and positive, else the observed duration when finite and positive, else
`undefined`. -/
def resolveChargeDuration (cached passed : Option ℤ) : Option ℤ :=
  match cached.bind (fun v => if 0 < v then some v else none) with
  | some c => some c
  | none => passed.bind (fun v => if 0 < v then some v else none)

/-- The function returned by `createUsageRecorder` (the charge bridge's
`chargeOnce`): `null` on a falsy task id, an already-charged entry or an
unknown task; removal without billing on an entry whose tenant id is invalid;
otherwise remove the pending entry and forward one `recordUsage` call.
Returns the billing result (or `none`), the updated task map and the updated
billing state. -/
def chargeOnce (ctx : BillingCtx) (tasks : String → Option PendingTask)
    (bs : BillingState) (now : ℤ) (taskId : String) (durationMs : Option ℤ) :
    Option UsageResult × (String → Option PendingTask) × BillingState :=
  if taskId = "" then (none, tasks, bs)
  else
    match tasks taskId with
    | none => (none, tasks, bs)
    | some cached =>
      if cached.charged then (none, tasks, bs)
      else
        let normalized := normalizeBaseId cached.baseId
        if normalized = "" then (none, eraseTask tasks taskId, bs)
        else
          let resolvedDurationMs := resolveChargeDuration cached.durationMs durationMs
          let tasks2 := eraseTask tasks taskId
          let charged := recordUsage ctx bs now
            { baseId := normalized
              durationMs := resolvedDurationMs.map (fun v => (v : ℚ)) }
          (some charged.1, tasks2, charged.2)

/-- The in-memory cache of the persistence sink, one field per persisted
ledger section. -/
structure StoreCache where
  paidUntilByBaseId : List (String × ℤ)
  adminBaseIdList : List String
  redeemCodes : List RedeemCode
  pricingByBaseId : List (String × RawPricing)
  usageByBaseId : List (String × UsageEntry)
  dailyUsageByBaseId : List (String × List (String × DailyEntry))
  deriving DecidableEq, Repr

/-- A partial snapshot handed to the sink's write function; a `none` field was
absent from the update. -/
structure PartialSnapshot where
  paidUntilByBaseId : Option (List (String × ℤ)) := none
  adminBaseIdList : Option (List String) := none
  redeemCodes : Option (List RedeemCode) := none
  pricingByBaseId : Option (List (String × RawPricing)) := none
  usageByBaseId : Option (List (String × UsageEntry)) := none
  dailyUsageByBaseId : Option (List (String × List (String × DailyEntry))) := none
  deriving DecidableEq, Repr

/-- The function returned by `createWriteStore` (services code): a falsy store
path is a no-op; otherwise each provided snapshot field overwrites the cached
one (`data.f ?? cache.f`) and the merged cache is serialized as the payload of
the chained durable write. Returns the updated cache and the enqueued payload
(`none` when nothing is written; serialization is modelled as the identity on
the typed cache). -/
def writeStore (storePath : String) (cache : StoreCache) (data : PartialSnapshot) :
    StoreCache × Option StoreCache :=
  if storePath = "" then (cache, none)
  else
    let merged : StoreCache :=
      { paidUntilByBaseId := data.paidUntilByBaseId.getD cache.paidUntilByBaseId
        adminBaseIdList := data.adminBaseIdList.getD cache.adminBaseIdList
        redeemCodes := data.redeemCodes.getD cache.redeemCodes
        pricingByBaseId := data.pricingByBaseId.getD cache.pricingByBaseId
        usageByBaseId := data.usageByBaseId.getD cache.usageByBaseId
        dailyUsageByBaseId := data.dailyUsageByBaseId.getD cache.dailyUsageByBaseId }
    (merged, some merged)

/-!
## The specification's reference tier-crossing algorithm (spec §4.2)

Modelled from the spec's pseudocode, to be compared with the source's
`calculateTieredCost`: walk the tiers in ascending order; at each tier the
available room is `boundary - cursor`, unbounded for an infinite boundary;
tiers with no room are skipped; `used = min(remaining, available)` minutes are
billed at the tier's unit price; minutes left after all tiers are billed at
the fallback unit price.
-/

/-- One pass of the spec's loop, followed by its trailing fallback billing. -/
def specTieredLoop (fallbackUnitPrice : ℚ) :
    List Tier → ℚ → ℚ → ℚ → ℚ
  | [], remaining, cost, _cursor =>
    if 0 < remaining then cost + remaining * fallbackUnitPrice else cost
  | tier :: rest, remaining, cost, cursor =>
    if remaining ≤ 0 then cost
    else
      match tier.upToMinutes with
      | none =>
        specTieredLoop fallbackUnitPrice rest 0
          (cost + remaining * tier.unitPrice) (cursor + remaining)
      | some boundary =>
        let available := boundary - cursor
        if available ≤ 0 then specTieredLoop fallbackUnitPrice rest remaining cost cursor
        else
          let used := min remaining available
          specTieredLoop fallbackUnitPrice rest (remaining - used)
            (cost + used * tier.unitPrice) (cursor + used)

/-- The spec's reference tier-crossing cost. -/
def specTieredCost (tieredPrices : List Tier) (prevMinutes addMinutes fallbackUnitPrice : ℚ) : ℚ :=
  specTieredLoop fallbackUnitPrice tieredPrices addMinutes 0 prevMinutes

/-- Ascending-by-boundary sortedness of a tier list (infinite boundaries
last), as the claims assume it. -/
def SortedTiers (l : List Tier) : Prop :=
  List.Pairwise (fun a b => tierLE a b = true) l

instance : DecidablePred SortedTiers := fun l =>
  inferInstanceAs (Decidable (List.Pairwise _ l))

/-!
## Theorems
-/

/-- The source's `for`-loop and the spec's loop agree at every intermediate
state: the source clamps the room to `max 0 (boundary - cursor)` before the
`available <= 0` skip, the spec skips on `boundary - cursor <= 0` directly,
and for an infinite boundary the source's `available = remaining` equals the
spec's unbounded consumption. -/
theorem tieredLoop_eq_specTieredLoop (fallbackUnitPrice : ℚ) (l : List Tier) :
    ∀ remaining cost cursor : ℚ,
      tieredLoop fallbackUnitPrice l remaining cost cursor =
        specTieredLoop fallbackUnitPrice l remaining cost cursor := by
  induction l with
  | nil => intro remaining cost cursor; rfl
  | cons tier rest ih =>
    intro remaining cost cursor
    by_cases hr : remaining ≤ 0
    · simp only [tieredLoop, specTieredLoop, if_pos hr]
    · rcases hb : tier.upToMinutes with _ | boundary
      · simp only [tieredLoop, specTieredLoop, if_neg hr, hb]
        rw [min_self, sub_self, ih]
      · simp only [tieredLoop, specTieredLoop, if_neg hr, hb]
        by_cases hav : boundary - cursor ≤ 0
        · rw [if_pos (by simpa using hav), if_pos hav, ih]
        · rw [if_neg (by simpa using hav), if_neg hav,
            max_eq_right (le_of_lt (by linarith : (0 : ℚ) < boundary - cursor)), ih]

/-- C1: for every ascending tier list, nonnegative previous daily total and
positive added quantity, the source's `calculateTieredCost` equals the spec's
reference tier-crossing algorithm; with no tiers the cost is
`add * fallbackUnitPrice`; and at daily cursor 1 with tiers
`[≤2 @ 0.2, ≤5 @ 0.1, ∞ @ 0.05]`, adding 2 minutes costs 0.2 + 0.1 = 0.3. -/
theorem calculateTieredCost_matches_spec :
    (∀ (tieredPrices : List Tier) (prevMinutes addMinutes fallbackUnitPrice : ℚ),
        SortedTiers tieredPrices → 0 ≤ prevMinutes → 0 < addMinutes →
        calculateTieredCost tieredPrices prevMinutes addMinutes fallbackUnitPrice =
          specTieredCost tieredPrices prevMinutes addMinutes fallbackUnitPrice) ∧
    (∀ prevMinutes addMinutes fallbackUnitPrice : ℚ, 0 < addMinutes →
        calculateTieredCost [] prevMinutes addMinutes fallbackUnitPrice =
          addMinutes * fallbackUnitPrice) ∧
    (∀ fallbackUnitPrice : ℚ,
        calculateTieredCost [⟨some 2, 1/5⟩, ⟨some 5, 1/10⟩, ⟨none, 1/20⟩] 1 2 fallbackUnitPrice
          = 3/10) := by
  refine ⟨?_, ?_, ?_⟩
  · intro tieredPrices prevMinutes addMinutes fallbackUnitPrice _hs _hp ha
    cases tieredPrices with
    | nil =>
      simp only [calculateTieredCost, specTieredCost, specTieredLoop, List.isEmpty_nil,
        if_pos ha, if_true]
      ring
    | cons t rest =>
      simp only [calculateTieredCost, specTieredCost, List.isEmpty_cons, Bool.false_eq_true,
        if_false, tieredLoop_eq_specTieredLoop]
  · intro prevMinutes addMinutes fallbackUnitPrice _ha
    simp [calculateTieredCost]
  · intro fallbackUnitPrice
    norm_num [calculateTieredCost, tieredLoop]

/-- Witness for C1 at concrete inputs. -/
theorem calculateTieredCost_matches_spec_witness :
    calculateTieredCost [⟨some 3, 2⟩, ⟨none, 1⟩] 0 5 7 =
      specTieredCost [⟨some 3, 2⟩, ⟨none, 1⟩] 0 5 7 ∧
    calculateTieredCost [] 4 3 7 = 3 * 7 ∧
    calculateTieredCost [⟨some 2, 1/5⟩, ⟨some 5, 1/10⟩, ⟨none, 1/20⟩] 1 2 9 = 3/10 :=
  ⟨calculateTieredCost_matches_spec.1 _ 0 5 7 (by decide) le_rfl (by norm_num),
   calculateTieredCost_matches_spec.2.1 4 3 7 (by norm_num),
   calculateTieredCost_matches_spec.2.2 9⟩

/-- The price loop returns the first matching tier's price. -/
theorem resolveTierLoop_find_some (orig : List Tier) (totalMinutes fallbackUnitPrice : ℚ) :
    ∀ (l : List Tier) (t : Tier), l.find? (tierMatches totalMinutes) = some t →
      resolveTierLoop orig totalMinutes fallbackUnitPrice l = t.unitPrice := by
  intro l
  induction l with
  | nil => intro t h; simp at h
  | cons a rest ih =>
    intro t h
    by_cases ha : tierMatches totalMinutes a
    · rw [List.find?_cons_of_pos _ ha] at h
      cases h
      simp [resolveTierLoop, ha]
    · rw [List.find?_cons_of_neg _ ha] at h
      simp only [resolveTierLoop, if_neg ha]
      exact ih t h

/-- With no matching tier, the price loop falls through to
`last.unitPrice || fallback` over the original list. -/
theorem resolveTierLoop_find_none (orig : List Tier) (totalMinutes fallbackUnitPrice : ℚ) :
    ∀ l : List Tier, l.find? (tierMatches totalMinutes) = none →
      resolveTierLoop orig totalMinutes fallbackUnitPrice l =
        match orig.getLast? with
        | some last => if last.unitPrice = 0 then fallbackUnitPrice else last.unitPrice
        | none => fallbackUnitPrice := by
  intro l
  induction l with
  | nil => intro _h; rfl
  | cons a rest ih =>
    intro h
    rw [List.find?_cons] at h
    rcases hm : tierMatches totalMinutes a with _ | _
    · rw [hm] at h
      simp only [resolveTierLoop, hm, Bool.false_eq_true, if_false]
      exact ih h
    · rw [hm] at h; exact absurd h (by simp)

/-- Amended C6: `resolveCurrentTierUnitPrice` returns the unit price of the
first tier whose boundary is at least the total minute count; with no
qualifying tier it returns the terminal tier's unit price when that price is
nonzero and the fallback when it is zero; with an empty tier list it returns
the fallback. -/
theorem resolveCurrentTierUnitPrice_characterization (tieredPrices : List Tier)
    (totalMinutes fallbackUnitPrice : ℚ) :
    (tieredPrices = [] →
      resolveCurrentTierUnitPrice tieredPrices totalMinutes fallbackUnitPrice =
        fallbackUnitPrice) ∧
    (∀ t, tieredPrices.find? (tierMatches totalMinutes) = some t →
      resolveCurrentTierUnitPrice tieredPrices totalMinutes fallbackUnitPrice =
        t.unitPrice) ∧
    (tieredPrices.find? (tierMatches totalMinutes) = none →
      ∀ last, tieredPrices.getLast? = some last →
        resolveCurrentTierUnitPrice tieredPrices totalMinutes fallbackUnitPrice =
          if last.unitPrice = 0 then fallbackUnitPrice else last.unitPrice) := by
  refine ⟨?_, ?_, ?_⟩
  · intro h; subst h; rfl
  · intro t h
    have hne : tieredPrices.isEmpty = false := by
      rcases tieredPrices with _ | _
      · simp at h
      · rfl
    simp only [resolveCurrentTierUnitPrice, hne, Bool.false_eq_true, if_false]
    exact resolveTierLoop_find_some _ _ _ _ _ h
  · intro h last hlast
    have hne : tieredPrices.isEmpty = false := by
      rcases tieredPrices with _ | _
      · simp at hlast
      · rfl
    simp only [resolveCurrentTierUnitPrice, hne, Bool.false_eq_true, if_false]
    rw [resolveTierLoop_find_none _ _ _ _ h, hlast]

/-- Witness for the amended C6 at concrete inputs: no tier of `[≤2 @ 5]`
covers minute 10, so the terminal (nonzero) price 5 is returned. -/
theorem resolveCurrentTierUnitPrice_characterization_witness :
    resolveCurrentTierUnitPrice [⟨some 2, 5⟩] 10 7 = if (5 : ℚ) = 0 then 7 else 5 :=
  (resolveCurrentTierUnitPrice_characterization [⟨some 2, 5⟩] 10 7).2.2 (by decide)
    ⟨some 2, 5⟩ (by decide)

/-- Counterexample to C6 as stated: for the single (hence terminal) tier
`≤2 @ 0` and total minute count 5 no tier qualifies, yet the function returns
the fallback 7 instead of the terminal tier's unit price 0, because the
source's `last.unitPrice || fallbackUnitPrice` treats a zero price as falsy. -/
theorem resolveCurrentTierUnitPrice_zero_terminal_counterexample :
    (List.find? (tierMatches 5) [⟨some 2, 0⟩] = none) ∧
    ([⟨some 2, (0 : ℚ)⟩] : List Tier) ≠ [] ∧
    resolveCurrentTierUnitPrice [⟨some 2, 0⟩] 5 7 ≠ (Tier.mk (some 2) 0).unitPrice := by
  refine ⟨by decide, by decide, by decide⟩

/-- Reading back the paid-until value just stored for a valid tenant key. -/
theorem getPaidUntil_setPaidUntil_self (s : SubState) (b : String) (v : ℤ) (hb : b ≠ "") :
    getPaidUntil (setPaidUntil s b v) b = v := by
  simp [setPaidUntil, getPaidUntil, if_neg hb]

/-- C3: `activatePlan` returns `null` on an invalid tenant key or invalid
(zero) duration; otherwise it both stores and returns
`max(now, paidAt, currentPaidUntil) + durationMs`; and calling
`activatePlan(t, D, now)` twice in succession with `0 < D` yields a second
paid-until strictly greater than the first by exactly `D`. -/
theorem activatePlan_extends :
    (∀ (s : SubState) (now : ℤ) (baseId : String) (durationMs : ℤ) (paidAt : Option ℤ),
        normalizeBaseId baseId = "" ∨ durationMs = 0 →
        activatePlan s now baseId durationMs paidAt = (none, s)) ∧
    (∀ (s : SubState) (now : ℤ) (baseId : String) (durationMs paidAt : ℤ),
        normalizeBaseId baseId ≠ "" → durationMs ≠ 0 → paidAt ≠ 0 →
        (activatePlan s now baseId durationMs (some paidAt)).1 =
          some (max (max now paidAt) (getPaidUntil s (normalizeBaseId baseId)) + durationMs) ∧
        getPaidUntil (activatePlan s now baseId durationMs (some paidAt)).2
            (normalizeBaseId baseId) =
          max (max now paidAt) (getPaidUntil s (normalizeBaseId baseId)) + durationMs) ∧
    (∀ (s : SubState) (now : ℤ) (baseId : String) (d : ℤ),
        normalizeBaseId baseId ≠ "" → 0 < d →
        (activatePlan s now baseId d (some now)).1 =
          some (max now (getPaidUntil s (normalizeBaseId baseId)) + d) ∧
        (activatePlan (activatePlan s now baseId d (some now)).2 now baseId d (some now)).1 =
          some (max now (getPaidUntil s (normalizeBaseId baseId)) + d + d)) := by
  refine ⟨?_, ?_, ?_⟩
  · intro s now baseId durationMs paidAt h
    simp only [activatePlan, if_pos h]
  · intro s now baseId durationMs paidAt hb hd hp
    have hvp : ¬(normalizeBaseId baseId = "" ∨ durationMs = 0) := not_or.mpr ⟨hb, hd⟩
    constructor
    · simp [activatePlan, if_neg hvp, if_neg hp]
    · simp [activatePlan, setPaidUntil, getPaidUntil, if_neg hvp, if_neg hp, if_neg hb]
  · intro s now baseId d hb hd
    have hvp : ¬(normalizeBaseId baseId = "" ∨ d = 0) := not_or.mpr ⟨hb, by omega⟩
    have e1 : activatePlan s now baseId d (some now) =
        (some (max now (getPaidUntil s (normalizeBaseId baseId)) + d),
         setPaidUntil s (normalizeBaseId baseId)
           (max now (getPaidUntil s (normalizeBaseId baseId)) + d)) := by
      simp [activatePlan, if_neg hvp, ite_self, max_self]
    have e2 : getPaidUntil
        (setPaidUntil s (normalizeBaseId baseId)
          (max now (getPaidUntil s (normalizeBaseId baseId)) + d))
        (normalizeBaseId baseId) =
        max now (getPaidUntil s (normalizeBaseId baseId)) + d :=
      getPaidUntil_setPaidUntil_self _ _ _ hb
    have hle : now ≤ max now (getPaidUntil s (normalizeBaseId baseId)) + d := by
      have := le_max_left now (getPaidUntil s (normalizeBaseId baseId))
      omega
    refine ⟨by rw [e1], ?_⟩
    rw [e1]
    simp [activatePlan, if_neg hvp, ite_self, max_self, e2, max_eq_right hle]

/-- Witness for C3 at concrete inputs. -/
theorem activatePlan_extends_witness :
    activatePlan
        { usage := fun _ => 0, paidUntilMap := fun _ => none
          adminSet := fun _ => false, redeemList := [] }
        50 "" 10 none =
      (none,
        { usage := fun _ => 0, paidUntilMap := fun _ => none
          adminSet := fun _ => false, redeemList := [] }) ∧
    (activatePlan
        { usage := fun _ => 0, paidUntilMap := fun b => if b = "t" then some 80 else none
          adminSet := fun _ => false, redeemList := [] }
        50 "t" 10 (some 60)).1 =
      some (max (max 50 60)
        (getPaidUntil
          { usage := fun _ => 0, paidUntilMap := fun b => if b = "t" then some 80 else none
            adminSet := fun _ => false, redeemList := [] } "t") + 10) ∧
    (activatePlan
        ((activatePlan
          { usage := fun _ => 0, paidUntilMap := fun _ => none
            adminSet := fun _ => false, redeemList := [] }
          50 "t" 10 (some 50)).2)
        50 "t" 10 (some 50)).1 =
      some (max 50
        (getPaidUntil
          { usage := fun _ => 0, paidUntilMap := fun _ => none
            adminSet := fun _ => false, redeemList := [] } "t") + 10 + 10) :=
  ⟨activatePlan_extends.1 _ 50 "" 10 none (Or.inl (by decide)),
   (activatePlan_extends.2.1 _ 50 "t" 10 60 (by decide) (by decide) (by decide)).1,
   (activatePlan_extends.2.2 _ 50 "t" 10 (by decide) (by decide)).2⟩

/-- An integer stays below a joined upper bound shifted by a nonnegative
amount. -/
theorem le_max_add {a b d : ℤ} (hd : 0 ≤ d) : b ≤ max a b + d := by
  have := le_max_right a b
  omega

/-- Counterexample to C4 as stated: `activatePlan` accepts the negative
duration `-1000` (it does not return `null`), and with the tenant already paid
until 5000 at time 1000 the stored paid-until moves backwards to 4000. -/
theorem activatePlan_negative_duration_counterexample :
    (activatePlan
        { usage := fun _ => 0, paidUntilMap := fun b => if b = "t" then some 5000 else none
          adminSet := fun _ => false, redeemList := [] }
        1000 "t" (-1000) (some 1000)).1 ≠ none ∧
    getPaidUntil
        (activatePlan
          { usage := fun _ => 0, paidUntilMap := fun b => if b = "t" then some 5000 else none
            adminSet := fun _ => false, redeemList := [] }
          1000 "t" (-1000) (some 1000)).2 "t" <
      getPaidUntil
        { usage := fun _ => 0, paidUntilMap := fun b => if b = "t" then some 5000 else none
          adminSet := fun _ => false, redeemList := [] } "t" := by
  constructor
  · decide
  · decide

/-- Amended C4: the stored paid-until of every tenant never decreases under
`activatePlan` whenever the duration argument is nonnegative (zero is
rejected and leaves the state unchanged), and never decreases under `redeem`
whenever every stored redeem-code record carries a nonnegative duration;
`activatePlan` does accept negative durations, which can decrease it. -/
theorem paidUntil_never_decreases_amended :
    (∀ (s : SubState) (now : ℤ) (baseId : String) (durationMs : ℤ)
        (paidAt : Option ℤ) (t : String), 0 ≤ durationMs →
        getPaidUntil s t ≤ getPaidUntil (activatePlan s now baseId durationMs paidAt).2 t) ∧
    (∀ (hash : String → String) (s : SubState) (now : ℤ) (baseId code t : String),
        (∀ r ∈ s.redeemList, 0 ≤ r.durationMs) →
        getPaidUntil s t ≤ getPaidUntil (redeem hash s now baseId code).2 t) := by
  have part1 : ∀ (s : SubState) (now : ℤ) (baseId : String) (durationMs : ℤ)
      (paidAt : Option ℤ) (t : String), 0 ≤ durationMs →
      getPaidUntil s t ≤ getPaidUntil (activatePlan s now baseId durationMs paidAt).2 t := by
    intro s now baseId durationMs paidAt t hd
    by_cases hv : normalizeBaseId baseId = "" ∨ durationMs = 0
    · simp [activatePlan, if_pos hv]
    · have hb : normalizeBaseId baseId ≠ "" := (not_or.mp hv).1
      simp only [activatePlan, if_neg hv, setPaidUntil, if_neg hb, getPaidUntil]
      by_cases ht : t = normalizeBaseId baseId
      · simp only [if_pos ht, Option.getD_some, ht]
        exact le_max_add hd
      · simp only [if_neg ht]
        exact le_rfl
  refine ⟨part1, ?_⟩
  intro hash s now baseId code t hall
  by_cases h1 : normalizeBaseId baseId = "" ∨ code = ""
  · simp [redeem, if_pos h1]
  · rcases hf : s.redeemList.find? (fun x => x.codeHash = hash code) with _ | item
    · simp [redeem, if_neg h1, hf]
    · by_cases hu : item.usedAt ≠ 0 ∧ item.usedBy ≠ ""
      · simp [redeem, if_neg h1, hf, if_pos hu]
      · have hmem : item ∈ s.redeemList := List.mem_of_find?_eq_some hf
        have hd : 0 ≤ item.durationMs := hall item hmem
        have hred : getPaidUntil (redeem hash s now baseId code).2 t =
            getPaidUntil
              (activatePlan s now (normalizeBaseId baseId) item.durationMs (some now)).2 t := by
          simp [redeem, if_neg h1, hf, if_neg hu, getPaidUntil]
        rw [hred]
        exact part1 s now (normalizeBaseId baseId) item.durationMs (some now) t hd

/-- Witness for the amended C4 at concrete inputs. -/
theorem paidUntil_never_decreases_amended_witness :
    getPaidUntil
        { usage := fun _ => 0, paidUntilMap := fun b => if b = "t" then some 5000 else none
          adminSet := fun _ => false, redeemList := [] } "t" ≤
      getPaidUntil
        (activatePlan
          { usage := fun _ => 0, paidUntilMap := fun b => if b = "t" then some 5000 else none
            adminSet := fun _ => false, redeemList := [] }
          1000 "t" 2000 (some 1000)).2 "t" ∧
    getPaidUntil
        { usage := fun _ => 0, paidUntilMap := fun _ => none
          adminSet := fun _ => false,
          redeemList := [⟨"h1", 600, 0, ""⟩] } "t" ≤
      getPaidUntil
        ((fun x => x) |> fun hash =>
          (redeem hash
            { usage := fun _ => 0, paidUntilMap := fun _ => none
              adminSet := fun _ => false,
              redeemList := [⟨"h1", 600, 0, ""⟩] }
            1000 "t" "h1").2) "t" :=
  ⟨paidUntil_never_decreases_amended.1 _ 1000 "t" 2000 (some 1000) "t" (by decide),
   paidUntil_never_decreases_amended.2 (fun x => x) _ 1000 "t" "h1" "t"
     (by intro r hr; simp at hr; rw [hr]; decide)⟩

/-- `getFreeRemaining` lies between 0 and the trial limit whenever the limit
is nonnegative. -/
theorem getFreeRemaining_bounds (cfg : SubConfig) (s : SubState) (b : String)
    (h : 0 ≤ cfg.trialLimit) :
    0 ≤ getFreeRemaining cfg s b ∧ getFreeRemaining cfg s b ≤ cfg.trialLimit := by
  unfold getFreeRemaining
  refine ⟨le_max_left _ _, max_le h ?_⟩
  have : (0 : ℤ) ≤ (s.usage b : ℤ) := Int.ofNat_nonneg _
  omega

/-- Every `getStatus` branch reports 0, the trial limit, or the live
`getFreeRemaining` value. -/
theorem getStatus_freeRemaining_cases (cfg : SubConfig) (s : SubState) (now : ℤ)
    (rawBaseId : String) :
    (getStatus cfg s now rawBaseId).freeRemaining = 0 ∨
    (getStatus cfg s now rawBaseId).freeRemaining = cfg.trialLimit ∨
    (getStatus cfg s now rawBaseId).freeRemaining =
      getFreeRemaining cfg s (normalizeBaseId rawBaseId) := by
  by_cases h1 : normalizeBaseId rawBaseId = ""
  · left; simp [getStatus, h1]
  · by_cases h2 : cfg.allowBypass
    · right; left; simp [getStatus, h1, h2]
    · rcases h3 : (isPaid cfg s now (normalizeBaseId rawBaseId)).paid with _ | _
      · right; right; simp [getStatus, h1, h2, h3]
      · right; left; simp [getStatus, h1, h2, h3]

/-- Every `consume` branch reports 0, the trial limit, or the live
`getFreeRemaining` value of some state. -/
theorem consume_freeRemaining_cases (cfg : SubConfig) (s : SubState) (now : ℤ)
    (rawBaseId : String) :
    (consume cfg s now rawBaseId).1.freeRemaining = 0 ∨
    (consume cfg s now rawBaseId).1.freeRemaining = cfg.trialLimit ∨
    ∃ s', (consume cfg s now rawBaseId).1.freeRemaining =
      getFreeRemaining cfg s' (normalizeBaseId rawBaseId) := by
  by_cases h1 : normalizeBaseId rawBaseId = ""
  · left; simp [consume, h1]
  · by_cases h2 : cfg.allowBypass
    · right; left; simp [consume, h1, h2]
    · rcases h3 : (isPaid cfg s now (normalizeBaseId rawBaseId)).paid with _ | _
      · by_cases h4 : getFreeRemaining cfg s (normalizeBaseId rawBaseId) ≤ 0
        · left; simp [consume, h1, h2, h3, h4]
        · right; right
          refine ⟨{ usage := fun b => if b = normalizeBaseId rawBaseId then s.usage b + 1
                      else s.usage b
                    paidUntilMap := s.paidUntilMap, adminSet := s.adminSet
                    redeemList := s.redeemList }, ?_⟩
          simp [consume, h1, h2, h3, h4]
      · right; left; simp [consume, h1, h2, h3]

/-- C7: assuming a nonnegative configured trial limit, the `freeRemaining`
reported by `getStatus` and by `consume` is never negative and never exceeds
the trial limit, for every tenant and every store state (hence along every
sequence of calls). -/
theorem freeRemaining_within_bounds (cfg : SubConfig) (s : SubState) (now : ℤ)
    (rawBaseId : String) (h : 0 ≤ cfg.trialLimit) :
    (0 ≤ (getStatus cfg s now rawBaseId).freeRemaining ∧
      (getStatus cfg s now rawBaseId).freeRemaining ≤ cfg.trialLimit) ∧
    (0 ≤ (consume cfg s now rawBaseId).1.freeRemaining ∧
      (consume cfg s now rawBaseId).1.freeRemaining ≤ cfg.trialLimit) := by
  constructor
  · rcases getStatus_freeRemaining_cases cfg s now rawBaseId with he | he | he <;> rw [he]
    · exact ⟨le_rfl, h⟩
    · exact ⟨h, le_rfl⟩
    · exact getFreeRemaining_bounds cfg s _ h
  · rcases consume_freeRemaining_cases cfg s now rawBaseId with he | he | ⟨s', he⟩ <;> rw [he]
    · exact ⟨le_rfl, h⟩
    · exact ⟨h, le_rfl⟩
    · exact getFreeRemaining_bounds cfg s' _ h

/-- Witness for C7 at concrete inputs. -/
theorem freeRemaining_within_bounds_witness :
    (0 ≤ (getStatus ⟨2, fun _ => false, false⟩
        { usage := fun _ => 0, paidUntilMap := fun _ => none
          adminSet := fun _ => false, redeemList := [] } 100 "base-1").freeRemaining ∧
      (getStatus ⟨2, fun _ => false, false⟩
        { usage := fun _ => 0, paidUntilMap := fun _ => none
          adminSet := fun _ => false, redeemList := [] } 100 "base-1").freeRemaining ≤ 2) ∧
    (0 ≤ (consume ⟨2, fun _ => false, false⟩
        { usage := fun _ => 0, paidUntilMap := fun _ => none
          adminSet := fun _ => false, redeemList := [] } 100 "base-1").1.freeRemaining ∧
      (consume ⟨2, fun _ => false, false⟩
        { usage := fun _ => 0, paidUntilMap := fun _ => none
          adminSet := fun _ => false, redeemList := [] } 100 "base-1").1.freeRemaining ≤ 2) :=
  freeRemaining_within_bounds ⟨2, fun _ => false, false⟩
    { usage := fun _ => 0, paidUntilMap := fun _ => none
      adminSet := fun _ => false, redeemList := [] } 100 "base-1" (by decide)

/-- Under the C5 hypotheses the internal `isPaid` reports not-paid with the
stored paid-until value. -/
theorem isPaid_not_paid (cfg : SubConfig) (s : SubState) (now : ℤ) (b : String)
    (hadmin : s.adminSet b = false) (hpaid : cfg.paidBaseIds b = false)
    (hexp : getPaidUntil s b = 0 ∨ getPaidUntil s b < now) :
    isPaid cfg s now b = ⟨false, getPaidUntil s b, false⟩ := by
  by_cases h0 : getPaidUntil s b = 0
  · simp [isPaid, hadmin, hpaid, h0]
  · have hlt : getPaidUntil s b < now := by
      rcases hexp with h | h
      · exact absurd h h0
      · exact h
    simp [isPaid, hadmin, hpaid, h0, not_le.mpr hlt]

/-- C5: for a valid tenant covered by neither the bypass flag, the admin set,
the static paid list nor an unexpired paid-until, `consume` with positive
remaining trial uses increments the trial counter of exactly that tenant by
one, leaves everything else unchanged, and returns `allowed = true` with the
post-increment remaining; with zero remaining it returns `allowed = false`,
`freeRemaining = 0` and leaves the state entirely unchanged (so arbitrary
repetition changes nothing). -/
theorem consume_trial_semantics (cfg : SubConfig) (s : SubState) (now : ℤ)
    (rawBaseId : String)
    (hb : normalizeBaseId rawBaseId ≠ "")
    (hbp : cfg.allowBypass = false)
    (hadmin : s.adminSet (normalizeBaseId rawBaseId) = false)
    (hpaid : cfg.paidBaseIds (normalizeBaseId rawBaseId) = false)
    (hexp : getPaidUntil s (normalizeBaseId rawBaseId) = 0 ∨
            getPaidUntil s (normalizeBaseId rawBaseId) < now) :
    (0 < getFreeRemaining cfg s (normalizeBaseId rawBaseId) →
      (consume cfg s now rawBaseId).2.usage (normalizeBaseId rawBaseId) =
        s.usage (normalizeBaseId rawBaseId) + 1 ∧
      (∀ t, t ≠ normalizeBaseId rawBaseId →
        (consume cfg s now rawBaseId).2.usage t = s.usage t) ∧
      (consume cfg s now rawBaseId).2.paidUntilMap = s.paidUntilMap ∧
      (consume cfg s now rawBaseId).2.adminSet = s.adminSet ∧
      (consume cfg s now rawBaseId).2.redeemList = s.redeemList ∧
      (consume cfg s now rawBaseId).1.allowed = true ∧
      (consume cfg s now rawBaseId).1.freeRemaining =
        getFreeRemaining cfg (consume cfg s now rawBaseId).2 (normalizeBaseId rawBaseId)) ∧
    (getFreeRemaining cfg s (normalizeBaseId rawBaseId) = 0 →
      (consume cfg s now rawBaseId).1.allowed = false ∧
      (consume cfg s now rawBaseId).1.freeRemaining = 0 ∧
      (consume cfg s now rawBaseId).2 = s) := by
  have hpi := isPaid_not_paid cfg s now (normalizeBaseId rawBaseId) hadmin hpaid hexp
  have hbp' : ¬cfg.allowBypass = true := by simp [hbp]
  constructor
  · intro hpos
    have h4 : ¬getFreeRemaining cfg s (normalizeBaseId rawBaseId) ≤ 0 := by omega
    refine ⟨?_, ?_, ?_, ?_, ?_, ?_, ?_⟩ <;>
      simp [consume, hb, hbp', hpi, h4]
  · intro hzero
    have h4 : getFreeRemaining cfg s (normalizeBaseId rawBaseId) ≤ 0 := by omega
    refine ⟨?_, ?_, ?_⟩ <;> simp [consume, hb, hbp', hpi, h4]

/-- Witness for C5 at concrete inputs: trial limit 2, fresh tenant. -/
theorem consume_trial_semantics_witness :
    (0 : ℤ) < getFreeRemaining ⟨2, fun _ => false, false⟩
      { usage := fun _ => 0, paidUntilMap := fun _ => none
        adminSet := fun _ => false, redeemList := [] } (normalizeBaseId "base-1") ∧
    (consume ⟨2, fun _ => false, false⟩
      { usage := fun _ => 0, paidUntilMap := fun _ => none
        adminSet := fun _ => false, redeemList := [] } 100 "base-1").2.usage
        (normalizeBaseId "base-1") =
      ({ usage := fun _ => 0, paidUntilMap := fun _ => none
         adminSet := fun _ => false, redeemList := [] } : SubState).usage
        (normalizeBaseId "base-1") + 1 ∧
    (consume ⟨2, fun _ => false, false⟩
      { usage := fun _ => 0, paidUntilMap := fun _ => none
        adminSet := fun _ => false, redeemList := [] } 100 "base-1").1.allowed = true :=
  have h := consume_trial_semantics ⟨2, fun _ => false, false⟩
    { usage := fun _ => 0, paidUntilMap := fun _ => none
      adminSet := fun _ => false, redeemList := [] } 100 "base-1"
    (by decide) rfl rfl rfl (Or.inl (by decide))
  have hpos : (0 : ℤ) < getFreeRemaining ⟨2, fun _ => false, false⟩
      { usage := fun _ => 0, paidUntilMap := fun _ => none
        adminSet := fun _ => false, redeemList := [] } (normalizeBaseId "base-1") := by decide
  ⟨hpos, (h.1 hpos).1, (h.1 hpos).2.2.2.2.2.1⟩

/-- `activatePlan` never touches the redeem-code list. -/
theorem activatePlan_redeemList (s : SubState) (now : ℤ) (baseId : String)
    (durationMs : ℤ) (paidAt : Option ℤ) :
    (activatePlan s now baseId durationMs paidAt).2.redeemList = s.redeemList := by
  by_cases hv : normalizeBaseId baseId = "" ∨ durationMs = 0
  · simp [activatePlan, hv]
  · by_cases hb : normalizeBaseId baseId = ""
    · simp [activatePlan, hv, setPaidUntil, hb]
    · simp [activatePlan, hv, setPaidUntil, hb, (not_or.mp hv).2]

/-- A `redeem` that finds a used first record fails without changing the
state. -/
theorem redeem_used_fails (hash : String → String) (s : SubState) (now : ℤ)
    (baseId code : String) (item : RedeemCode)
    (hv : ¬(normalizeBaseId baseId = "" ∨ code = ""))
    (hfind : s.redeemList.find? (fun x => x.codeHash = hash code) = some item)
    (hused : item.usedAt ≠ 0 ∧ item.usedBy ≠ "") :
    redeem hash s now baseId code = (RedeemResult.fail "兑换码已使用", s) := by
  simp only [redeem, if_neg hv, hfind, if_pos hused]

/-- Marking the first record with a given hash keeps it the first record with
that hash, now carrying the marker fields. -/
theorem markFirstUsed_find (h : String) (now : ℤ) (tenant : String) :
    ∀ (l : List RedeemCode) (item : RedeemCode),
      l.find? (fun x => x.codeHash = h) = some item →
      (markFirstUsed h now tenant l).find? (fun x => x.codeHash = h) =
        some { item with usedAt := now, usedBy := tenant } := by
  intro l
  induction l with
  | nil => intro item hf; simp at hf
  | cons x xs ih =>
    intro item hf
    by_cases hx : x.codeHash = h
    · rw [List.find?_cons_of_pos _ (by simpa using hx)] at hf
      cases hf
      simp only [markFirstUsed, if_pos hx]
      exact List.find?_cons_of_pos _ (by simpa using hx)
    · rw [List.find?_cons_of_neg _ (by simpa using hx)] at hf
      simp only [markFirstUsed, if_neg hx]
      rw [List.find?_cons_of_neg _ (by simpa using hx)]
      exact ih item hf

/-- C9: once a `redeem` of a plaintext code succeeds, every later `redeem` of
the same code — from any valid tenant, and even when duplicate records with
the same hash sit later in the list — fails with the already-used error and
leaves the state unchanged, because the lookup always returns the earliest
record with that hash, which is now marked used. -/
theorem redeem_at_most_once (hash : String → String) (s : SubState) (now1 : ℤ)
    (b1 code : String) (pu : Option ℤ) (hnow : now1 ≠ 0)
    (hok : (redeem hash s now1 b1 code).1 = RedeemResult.ok pu) :
    ∀ (b2 : String) (now2 : ℤ), normalizeBaseId b2 ≠ "" →
      redeem hash (redeem hash s now1 b1 code).2 now2 b2 code =
        (RedeemResult.fail "兑换码已使用", (redeem hash s now1 b1 code).2) := by
  intro b2 now2 hb2
  by_cases h1 : normalizeBaseId b1 = "" ∨ code = ""
  · simp [redeem, h1] at hok
  · have hb1 : normalizeBaseId b1 ≠ "" := (not_or.mp h1).1
    have hc : code ≠ "" := (not_or.mp h1).2
    rcases hf : s.redeemList.find? (fun x => x.codeHash = hash code) with _ | item
    · simp [redeem, h1, hf] at hok
    · by_cases hu : item.usedAt ≠ 0 ∧ item.usedBy ≠ ""
      · simp [redeem, h1, hf, hu] at hok
      · have e : (redeem hash s now1 b1 code).2.redeemList =
            markFirstUsed (hash code) now1 (normalizeBaseId b1) s.redeemList := by
          simp [redeem, h1, hf, hu, activatePlan_redeemList]
        have hfind2 : (redeem hash s now1 b1 code).2.redeemList.find?
            (fun x => x.codeHash = hash code) =
            some { item with usedAt := now1, usedBy := normalizeBaseId b1 } := by
          rw [e]
          exact markFirstUsed_find (hash code) now1 (normalizeBaseId b1) s.redeemList item hf
        have h2 : ¬(normalizeBaseId b2 = "" ∨ code = "") := not_or.mpr ⟨hb2, hc⟩
        exact redeem_used_fails hash _ now2 b2 code _ h2 hfind2 ⟨hnow, hb1⟩

/-- Witness for C9: a duplicate-hash list built by two `addRedeemCode` calls
with the same plaintext; after the first successful redemption the second
attempt from another tenant fails with the already-used error. -/
theorem redeem_at_most_once_witness :
    redeem (fun x => x)
        (redeem (fun x => x)
          (addRedeemCode (fun x => x)
            (addRedeemCode (fun x => x)
              { usage := fun _ => 0, paidUntilMap := fun _ => none
                adminSet := fun _ => false, redeemList := [] } "CODE" 600).2 "CODE" 900).2
          1000 "tenant-a" "CODE").2
        2000 "tenant-b" "CODE" =
      (RedeemResult.fail "兑换码已使用",
        (redeem (fun x => x)
          (addRedeemCode (fun x => x)
            (addRedeemCode (fun x => x)
              { usage := fun _ => 0, paidUntilMap := fun _ => none
                adminSet := fun _ => false, redeemList := [] } "CODE" 600).2 "CODE" 900).2
          1000 "tenant-a" "CODE").2) :=
  redeem_at_most_once (fun x => x)
    (addRedeemCode (fun x => x)
      (addRedeemCode (fun x => x)
        { usage := fun _ => 0, paidUntilMap := fun _ => none
          adminSet := fun _ => false, redeemList := [] } "CODE" 600).2 "CODE" 900).2
    1000 "tenant-a" "CODE" (some 1600) (by decide) (by decide) "tenant-b" 2000 (by decide)

/-- C10: when the first record matching the redeemed code carries a zero
(falsy) duration, `redeem` still marks the record used and reports success,
but with a `null` paid-until: `activatePlan` rejects the zero duration and the
paid-until map is left untouched, so the single-use code is consumed without
extending the tenant's paid period. -/
theorem redeem_zero_duration_code (hash : String → String) (s : SubState) (now : ℤ)
    (baseId code : String) (item : RedeemCode)
    (hb : normalizeBaseId baseId ≠ "") (hc : code ≠ "")
    (hfind : s.redeemList.find? (fun x => x.codeHash = hash code) = some item)
    (hunused : ¬(item.usedAt ≠ 0 ∧ item.usedBy ≠ ""))
    (hdur : item.durationMs = 0) :
    redeem hash s now baseId code =
      (RedeemResult.ok none,
       { s with redeemList :=
          markFirstUsed (hash code) now (normalizeBaseId baseId) s.redeemList }) := by
  have h1 : ¬(normalizeBaseId baseId = "" ∨ code = "") := not_or.mpr ⟨hb, hc⟩
  have ha : activatePlan s now (normalizeBaseId baseId) item.durationMs (some now) =
      (none, s) := by
    rw [hdur]
    simp [activatePlan]
  simp [redeem, h1, hfind, hunused, ha]

/-- Witness for C10 at concrete inputs: a code record with duration 0 loaded
as-is (as the snapshot merge allows) is consumed without granting time. -/
theorem redeem_zero_duration_code_witness :
    redeem (fun x => x)
        { usage := fun _ => 0, paidUntilMap := fun _ => none
          adminSet := fun _ => false, redeemList := [⟨"CODE", 0, 0, ""⟩] }
        1000 "tenant-a" "CODE" =
      (RedeemResult.ok none,
       { usage := fun _ => 0, paidUntilMap := fun _ => none
         adminSet := fun _ => false,
         redeemList :=
           markFirstUsed "CODE" 1000 (normalizeBaseId "tenant-a")
             [⟨"CODE", 0, 0, ""⟩] }) :=
  redeem_zero_duration_code (fun x => x)
    { usage := fun _ => 0, paidUntilMap := fun _ => none
      adminSet := fun _ => false, redeemList := [⟨"CODE", 0, 0, ""⟩] }
    1000 "tenant-a" "CODE" ⟨"CODE", 0, 0, ""⟩
    (by decide) (by decide) (by decide) (by decide) rfl

/-- C2: the charge bridge bills at most once. A task id absent from the
pending map yields `null` and leaves the task map and the whole billing state
(UsageTotal and DailyUsage included) unchanged. A registered, uncharged task
with a valid tenant id has its pending entry removed and triggers exactly one
`recordUsage` call, whose duration argument is the registered duration when
present and positive, else the observed duration when positive; hence a
second call with the same task id returns `null` and changes nothing. -/
theorem chargeOnce_bills_at_most_once (ctx : BillingCtx)
    (tasks : String → Option PendingTask) (bs : BillingState) (now : ℤ) :
    (∀ (taskId : String) (durationMs : Option ℤ), tasks taskId = none →
        chargeOnce ctx tasks bs now taskId durationMs = (none, tasks, bs)) ∧
    (∀ (taskId : String) (durationMs : Option ℤ) (cached : PendingTask),
        taskId ≠ "" → tasks taskId = some cached → cached.charged = false →
        normalizeBaseId cached.baseId ≠ "" →
        (chargeOnce ctx tasks bs now taskId durationMs =
          (some (recordUsage ctx bs now
              { baseId := normalizeBaseId cached.baseId
                durationMs := (resolveChargeDuration cached.durationMs durationMs).map
                  (fun v => (v : ℚ)) }).1,
           eraseTask tasks taskId,
           (recordUsage ctx bs now
              { baseId := normalizeBaseId cached.baseId
                durationMs := (resolveChargeDuration cached.durationMs durationMs).map
                  (fun v => (v : ℚ)) }).2)) ∧
        (∀ c, cached.durationMs = some c → 0 < c →
          resolveChargeDuration cached.durationMs durationMs = some c) ∧
        (∀ o, (∀ c, cached.durationMs = some c → c ≤ 0) → durationMs = some o → 0 < o →
          resolveChargeDuration cached.durationMs durationMs = some o) ∧
        (∀ (now2 : ℤ) (d2 : Option ℤ),
          chargeOnce ctx (eraseTask tasks taskId)
              (recordUsage ctx bs now
                { baseId := normalizeBaseId cached.baseId
                  durationMs := (resolveChargeDuration cached.durationMs durationMs).map
                    (fun v => (v : ℚ)) }).2 now2 taskId d2 =
            (none, eraseTask tasks taskId,
             (recordUsage ctx bs now
                { baseId := normalizeBaseId cached.baseId
                  durationMs := (resolveChargeDuration cached.durationMs durationMs).map
                    (fun v => (v : ℚ)) }).2))) := by
  constructor
  · intro taskId durationMs habs
    by_cases ht : taskId = ""
    · simp [chargeOnce, ht]
    · simp [chargeOnce, ht, habs]
  · intro taskId durationMs cached ht hreg hch hbase
    refine ⟨?_, ?_, ?_, ?_⟩
    · simp [chargeOnce, ht, hreg, hch, hbase]
    · intro c hc hpos
      simp [resolveChargeDuration, hc, hpos]
    · intro o hcle hobs hpos
      rcases hcd : cached.durationMs with _ | c
      · simp [resolveChargeDuration, hcd, hobs, hpos]
      · have : c ≤ 0 := hcle c hcd
        simp [resolveChargeDuration, hcd, hobs, hpos, not_lt.mpr this]
    · intro now2 d2
      have herased : eraseTask tasks taskId taskId = none := by
        simp [eraseTask]
      simp [chargeOnce, ht, herased]

/-- Witness for C2 at concrete inputs: one registered task charged once, an
unknown task id, and the duration resolution on a positive registered
duration. -/
theorem chargeOnce_bills_at_most_once_witness :
    chargeOnce ⟨⟨1/2, "分钟", none⟩, fun _ => "2026-01-01"⟩
        (fun t => if t = "task-1" then some ⟨"base-1", false, some 120000⟩ else none)
        ⟨fun _ => none, fun _ => none, fun _ => none⟩ 1000 "missing" (some 60000) =
      (none,
       fun t => if t = "task-1" then some ⟨"base-1", false, some 120000⟩ else none,
       ⟨fun _ => none, fun _ => none, fun _ => none⟩) ∧
    resolveChargeDuration (some 120000) (some 60000) = some 120000 ∧
    (chargeOnce ⟨⟨1/2, "分钟", none⟩, fun _ => "2026-01-01"⟩
        (eraseTask
          (fun t => if t = "task-1" then some ⟨"base-1", false, some 120000⟩ else none)
          "task-1")
        (recordUsage ⟨⟨1/2, "分钟", none⟩, fun _ => "2026-01-01"⟩
          ⟨fun _ => none, fun _ => none, fun _ => none⟩ 1000
          { baseId := normalizeBaseId "base-1"
            durationMs := (resolveChargeDuration (some 120000) (some 60000)).map
              (fun v => (v : ℚ)) }).2 2000 "task-1" none) =
      (none,
       eraseTask
         (fun t => if t = "task-1" then some ⟨"base-1", false, some 120000⟩ else none)
         "task-1",
       (recordUsage ⟨⟨1/2, "分钟", none⟩, fun _ => "2026-01-01"⟩
          ⟨fun _ => none, fun _ => none, fun _ => none⟩ 1000
          { baseId := normalizeBaseId "base-1"
            durationMs := (resolveChargeDuration (some 120000) (some 60000)).map
              (fun v => (v : ℚ)) }).2) :=
  have h := chargeOnce_bills_at_most_once ⟨⟨1/2, "分钟", none⟩, fun _ => "2026-01-01"⟩
    (fun t => if t = "task-1" then some ⟨"base-1", false, some 120000⟩ else none)
    ⟨fun _ => none, fun _ => none, fun _ => none⟩ 1000
  have h2 := h.2 "task-1" (some 60000) ⟨"base-1", false, some 120000⟩
    (by decide) rfl rfl (by decide)
  ⟨h.1 "missing" (some 60000) rfl,
   h2.2.1 120000 rfl (by decide),
   h2.2.2.2 2000 none⟩

/-- C8: with a configured store path, every call to the sink's write function
leaves each of the six cached snapshot sections equal to the update's value
when that section is present and equal to the prior cached value when it is
absent, and the payload enqueued for the durable write is exactly the merged
cache. -/
theorem writeStore_merges_fieldwise (storePath : String) (cache : StoreCache)
    (data : PartialSnapshot) (hpath : storePath ≠ "") :
    ((∀ v, data.paidUntilByBaseId = some v →
        (writeStore storePath cache data).1.paidUntilByBaseId = v) ∧
     (data.paidUntilByBaseId = none →
        (writeStore storePath cache data).1.paidUntilByBaseId = cache.paidUntilByBaseId)) ∧
    ((∀ v, data.adminBaseIdList = some v →
        (writeStore storePath cache data).1.adminBaseIdList = v) ∧
     (data.adminBaseIdList = none →
        (writeStore storePath cache data).1.adminBaseIdList = cache.adminBaseIdList)) ∧
    ((∀ v, data.redeemCodes = some v →
        (writeStore storePath cache data).1.redeemCodes = v) ∧
     (data.redeemCodes = none →
        (writeStore storePath cache data).1.redeemCodes = cache.redeemCodes)) ∧
    ((∀ v, data.pricingByBaseId = some v →
        (writeStore storePath cache data).1.pricingByBaseId = v) ∧
     (data.pricingByBaseId = none →
        (writeStore storePath cache data).1.pricingByBaseId = cache.pricingByBaseId)) ∧
    ((∀ v, data.usageByBaseId = some v →
        (writeStore storePath cache data).1.usageByBaseId = v) ∧
     (data.usageByBaseId = none →
        (writeStore storePath cache data).1.usageByBaseId = cache.usageByBaseId)) ∧
    ((∀ v, data.dailyUsageByBaseId = some v →
        (writeStore storePath cache data).1.dailyUsageByBaseId = v) ∧
     (data.dailyUsageByBaseId = none →
        (writeStore storePath cache data).1.dailyUsageByBaseId = cache.dailyUsageByBaseId)) ∧
    (writeStore storePath cache data).2 = some (writeStore storePath cache data).1 := by
  refine ⟨⟨?_, ?_⟩, ⟨?_, ?_⟩, ⟨?_, ?_⟩, ⟨?_, ?_⟩, ⟨?_, ?_⟩, ⟨?_, ?_⟩, ?_⟩ <;>
    first
    | (intro v hv; simp [writeStore, hpath, hv])
    | (intro hv; simp [writeStore, hpath, hv])
    | simp [writeStore, hpath]

/-- Witness for C8 at concrete inputs: a partial snapshot carrying only the
admin list overwrites that section and keeps the other five. -/
theorem writeStore_merges_fieldwise_witness :
    (writeStore "store.json"
        ⟨[("t", 5)], [], [], [], [], []⟩
        { adminBaseIdList := some ["a"] }).1.adminBaseIdList = ["a"] ∧
    (writeStore "store.json"
        ⟨[("t", 5)], [], [], [], [], []⟩
        { adminBaseIdList := some ["a"] }).1.paidUntilByBaseId = [("t", 5)] ∧
    (writeStore "store.json"
        ⟨[("t", 5)], [], [], [], [], []⟩
        { adminBaseIdList := some ["a"] }).2 =
      some (writeStore "store.json"
        ⟨[("t", 5)], [], [], [], [], []⟩
        { adminBaseIdList := some ["a"] }).1 :=
  have h := writeStore_merges_fieldwise "store.json"
    ⟨[("t", 5)], [], [], [], [], []⟩
    { adminBaseIdList := some ["a"] } (by decide)
  ⟨h.2.1.1 ["a"] rfl, h.1.2 rfl, h.2.2.2.2.2.2⟩
